import Mathlib

/-!
# SAMD21 PWM driver (`cpu/samd21/periph/pwm.c`)

A shallow embedding of the low-level PWM driver and the properties of its
prescaler selection, initialisation sequence, duty-cycle writes and power
toggling.

Modelling conventions.

* `unsigned int` / `uint32_t` values are natural numbers, reduced modulo `2 ^ 32`
  where the C expression can wrap; `int` values are integers.
* Undefined behaviour (division by zero, reading past the end of a configuration
  table, indexing past the end of a register array) and a failed `assert` give
  `none`.
* Everything the file takes from headers that are not part of the translated
  source (`cpu.h`, `board.h`, `periph/gpio.h`, `periph/pwm.h`) is a field of
  `Env`; nothing is assumed about these constants except where a theorem says so.
* Memory-mapped registers are storage cells: a read returns the value last
  written.  The only exception is the write-one-to-clear / write-one-to-set pair
  `CTRLBCLR` / `CTRLBSET`, which act on the shared cell `CTRLB`.  The side effect
  of the software-reset strobe on the other registers is not modelled.
* A busy-wait loop on a synchronisation flag is recorded as one event in the
  trace; the hardware is taken to acknowledge eventually.
-/

namespace Samd21Pwm

/-! ## Data model -/

/-- Timer/counter-for-control instances a configuration entry can name. -/
inductive Tcc
  | TCC0
  | TCC1
  | TCC2
  | TCC3
  deriving DecidableEq

/-- Values of `pwm_mode_t`; `other` stands for any enumerator value that is none
of the three named ones. -/
inductive pwm_mode_t
  | PWM_LEFT
  | PWM_RIGHT
  | PWM_CENTER
  | other (raw : Nat)
  deriving DecidableEq

/-- One channel of a PWM device: output pin, pin multiplexer selector and the
index of the compare register that drives it (`pwm_conf_chan_t`). -/
structure pwm_conf_chan_t where
  pin : Nat
  mux : Nat
  chan : Nat
  deriving DecidableEq

/-- One PWM device of the board table (`pwm_conf_t`). -/
structure pwm_conf_t where
  dev : Tcc
  chan : List pwm_conf_chan_t
  chan_numof : Nat
  deriving DecidableEq

/-- Compile-time environment: the constants and tables that the driver takes
from the vendor register headers and from the board configuration. -/
structure Env where
  CLOCK_CORECLOCK : Nat
  PWM_NUMOF : Nat
  pwm_config : List pwm_conf_t
  GPIO_UNDEF : Nat
  GPIO_OUT : Nat
  has_TCC3 : Bool
  TCC0_GCLK_ID : Nat
  TCC1_GCLK_ID : Nat
  TCC2_GCLK_ID : Nat
  TCC3_GCLK_ID : Nat
  PM_APBCMASK_TCC0 : Nat
  PM_APBCMASK_TCC1 : Nat
  PM_APBCMASK_TCC2 : Nat
  PM_APBCMASK_TCC3 : Nat
  GCLK_CLKCTRL_CLKEN : Nat
  GCLK_CLKCTRL_GEN_GCLK0 : Nat
  GCLK_CLKCTRL_GEN_GCLK7 : Nat
  GCLK_CLKCTRL_ID_Pos : Nat
  GCLK_CLKCTRL_ID_Msk : Nat
  TCC_CTRLA_SWRST : Nat
  TCC_CTRLA_ENABLE : Nat
  TCC_CTRLA_PRESCALER_Pos : Nat
  TCC_CTRLA_PRESCALER_Msk : Nat
  TCC_CTRLA_PRESCSYNC_GCLK_Val : Nat
  TCC_CTRLA_PRESCALER_DIV4_Val : Nat
  TCC_CTRLA_PRESCALER_DIV8_Val : Nat
  TCC_CTRLA_PRESCALER_DIV16_Val : Nat
  TCC_CTRLA_PRESCALER_DIV64_Val : Nat
  TCC_CTRLA_PRESCALER_DIV256_Val : Nat
  TCC_CTRLA_PRESCALER_DIV1024_Val : Nat
  TCC_CTRLBCLR_DIR : Nat
  TCC_CTRLBSET_DIR : Nat
  TCC_WAVE_WAVEGEN_NPWM : Nat
  TCC_SYNCBUSY_SWRST : Nat
  TCC_SYNCBUSY_CTRLB : Nat
  TCC_SYNCBUSY_WAVE : Nat
  TCC_SYNCBUSY_PER : Nat
  TCC_SYNCBUSY_CC0 : Nat
  TCC_SYNCBUSY_CCB0 : Nat

/-- Field-insert form of the vendor header, `Msk & (value << Pos)`, for the clock
identifier of `GCLK->CLKCTRL`. -/
def GCLK_CLKCTRL_ID (k : Env) (value : Nat) : Nat :=
  k.GCLK_CLKCTRL_ID_Msk &&& (value <<< k.GCLK_CLKCTRL_ID_Pos)

/-- Field-insert form of the vendor header, `Msk & (value << Pos)`, for the
prescaler field of `CTRLA`. -/
def TCC_CTRLA_PRESCALER (k : Env) (value : Nat) : Nat :=
  k.TCC_CTRLA_PRESCALER_Msk &&& (value <<< k.TCC_CTRLA_PRESCALER_Pos)

/-- Bitwise complement of a 32-bit unsigned value (the C operator `~`). -/
def not32 (x : Nat) : Nat :=
  0xFFFFFFFF ^^^ x

/-- Storage cells of the register file that the driver touches. -/
inductive Reg
  | PM_APBCMASK
  | GCLK_CLKCTRL
  | CTRLA (t : Tcc)
  | CTRLB (t : Tcc)
  | WAVE (t : Tcc)
  | PER (t : Tcc)
  | CC (t : Tcc) (i : Nat)
  | CCB (t : Tcc) (i : Nat)
  deriving DecidableEq

/-- Everything the driver does to the outside world, in program order. -/
inductive Event
  | gpio_init (pin mode : Nat)
  | gpio_init_mux (pin mux : Nat)
  | write (r : Reg) (v : Nat)
  | write_CTRLBCLR (t : Tcc) (v : Nat)
  | write_CTRLBSET (t : Tcc) (v : Nat)
  | wait_SYNCBUSY (t : Tcc) (mask : Nat)
  | wait_GCLK_SYNCBUSY
  deriving DecidableEq

/-- Hardware state: the register file and the trace of collaborator calls,
register writes and busy-waits issued so far (oldest first). -/
structure Hw where
  regs : Reg → Nat
  trace : List Event

namespace Hw

/-- Update one cell of a register file. -/
def setReg (f : Reg → Nat) (r : Reg) (v : Nat) : Reg → Nat :=
  fun x => if x = r then v else f x

/-- Plain register store `r = v`. -/
def write (st : Hw) (r : Reg) (v : Nat) : Hw :=
  { regs := setReg st.regs r v, trace := st.trace ++ [Event.write r v] }

/-- Store to `CTRLBCLR`: the bits set in `v` are cleared in `CTRLB`. -/
def write_CTRLBCLR (st : Hw) (t : Tcc) (v : Nat) : Hw :=
  { regs := setReg st.regs (Reg.CTRLB t) (st.regs (Reg.CTRLB t) &&& not32 v),
    trace := st.trace ++ [Event.write_CTRLBCLR t v] }

/-- Store to `CTRLBSET`: the bits set in `v` are set in `CTRLB`. -/
def write_CTRLBSET (st : Hw) (t : Tcc) (v : Nat) : Hw :=
  { regs := setReg st.regs (Reg.CTRLB t) (st.regs (Reg.CTRLB t) ||| v),
    trace := st.trace ++ [Event.write_CTRLBSET t v] }

/-- Busy-wait `while (tcc->SYNCBUSY.reg & mask) {}`. -/
def wait_SYNCBUSY (st : Hw) (t : Tcc) (mask : Nat) : Hw :=
  { st with trace := st.trace ++ [Event.wait_SYNCBUSY t mask] }

/-- Busy-wait `while (GCLK->STATUS.bit.SYNCBUSY) {}`. -/
def wait_GCLK_SYNCBUSY (st : Hw) : Hw :=
  { st with trace := st.trace ++ [Event.wait_GCLK_SYNCBUSY] }

/-- Call of the pin collaborator `gpio_init(pin, mode)`. -/
def gpio_init (st : Hw) (pin mode : Nat) : Hw :=
  { st with trace := st.trace ++ [Event.gpio_init pin mode] }

/-- Call of the pin collaborator `gpio_init_mux(pin, mux)`. -/
def gpio_init_mux (st : Hw) (pin mux : Nat) : Hw :=
  { st with trace := st.trace ++ [Event.gpio_init_mux pin mux] }

end Hw

/-! ## The driver -/

/-- Source `_tcc`: the counter instance of a device; reading past the table is
undefined. -/
def _tcc (k : Env) (dev : Nat) : Option Tcc :=
  (k.pwm_config[dev]?).map fun c => c.dev

/-- Source `_chan`: the compare-register index of a logical channel. -/
def _chan (k : Env) (dev : Nat) (chan : Nat) : Option Nat :=
  (k.pwm_config[dev]?).bind fun c => (c.chan[chan]?).map fun ch => ch.chan

/-- Source `_clk_id`: generic-clock identifier of the device's counter; the
closing `assert(0)` is `none`. -/
def _clk_id (k : Env) (dev : Nat) : Option Nat :=
  (_tcc k dev).bind fun tcc =>
    if tcc = Tcc.TCC0 then some k.TCC0_GCLK_ID
    else if tcc = Tcc.TCC1 then some k.TCC1_GCLK_ID
    else if tcc = Tcc.TCC2 then some k.TCC2_GCLK_ID
    else if k.has_TCC3 = true ∧ tcc = Tcc.TCC3 then some k.TCC3_GCLK_ID
    else none

/-- Source `_apbcmask_tcc`: bus-clock mask bit of the device's counter; the
closing `assert(0)` is `none`. -/
def _apbcmask_tcc (k : Env) (dev : Nat) : Option Nat :=
  (_tcc k dev).bind fun tcc =>
    if tcc = Tcc.TCC0 then some k.PM_APBCMASK_TCC0
    else if tcc = Tcc.TCC1 then some k.PM_APBCMASK_TCC1
    else if tcc = Tcc.TCC2 then some k.PM_APBCMASK_TCC2
    else if k.has_TCC3 = true ∧ tcc = Tcc.TCC3 then some k.PM_APBCMASK_TCC3
    else none

/-- Source `get_prescaler`: the returned `uint8_t` and the value of `*scale`
after the call (`scale` is its value before the call). -/
def get_prescaler (k : Env) (target : Nat) (scale : Int) : Nat × Int :=
  if target = 0 then (0xff, scale)
  else if target ≥ 512 then (k.TCC_CTRLA_PRESCALER_DIV1024_Val % 256, 1024)
  else if target ≥ 128 then (k.TCC_CTRLA_PRESCALER_DIV256_Val % 256, 256)
  else if target ≥ 32 then (k.TCC_CTRLA_PRESCALER_DIV64_Val % 256, 64)
  else if target ≥ 12 then (k.TCC_CTRLA_PRESCALER_DIV16_Val % 256, 16)
  else if target ≥ 6 then (k.TCC_CTRLA_PRESCALER_DIV8_Val % 256, 8)
  else if target ≥ 3 then (k.TCC_CTRLA_PRESCALER_DIV4_Val % 256, 4)
  else ((target - 1) % 256, (target : Int))

/-- Source `poweron`: bus clock on, generator 0 connected, wait for the clock
controller. -/
def poweron (k : Env) (st : Hw) (dev : Nat) : Option Hw :=
  (_apbcmask_tcc k dev).bind fun mask =>
  let st1 := st.write Reg.PM_APBCMASK (st.regs Reg.PM_APBCMASK ||| mask)
  (_clk_id k dev).bind fun id =>
  let st2 := st1.write Reg.GCLK_CLKCTRL
    (k.GCLK_CLKCTRL_CLKEN ||| k.GCLK_CLKCTRL_GEN_GCLK0 ||| GCLK_CLKCTRL_ID k id)
  some st2.wait_GCLK_SYNCBUSY

/-- The pin loop of `pwm_init`: channels `i, i+1, ...` (`n` of them) of the
device entry `c`. -/
def configure_pins (k : Env) (c : pwm_conf_t) : Nat → Nat → Hw → Option Hw
  | 0, _, st => some st
  | n + 1, i, st =>
    match c.chan[i]? with
    | none => none
    | some ch =>
      if ch.pin ≠ k.GPIO_UNDEF then
        configure_pins k c n (i + 1) ((st.gpio_init ch.pin k.GPIO_OUT).gpio_init_mux ch.pin ch.mux)
      else
        configure_pins k c n (i + 1) st

/-- Source `pwm_init`, from the module reset to the final `return f_real`: the
counter `tcc` is reset, the count direction is set from `mode`, prescaler,
waveform and period are programmed and the counter is enabled.  An unsupported
mode returns 0 right after the reset. -/
def pwm_init_tcc (k : Env) (tcc : Tcc) (mode : pwm_mode_t) (prescaler res f_real : Nat)
    (st2 : Hw) : Nat × Hw :=
  let st3 := (st2.write (Reg.CTRLA tcc) k.TCC_CTRLA_SWRST).wait_SYNCBUSY tcc k.TCC_SYNCBUSY_SWRST
  let finish : Hw → Nat × Hw := fun st4 =>
    let st5 := st4.wait_SYNCBUSY tcc k.TCC_SYNCBUSY_CTRLB
    let st6 := st5.write (Reg.CTRLA tcc)
      (k.TCC_CTRLA_PRESCSYNC_GCLK_Val ||| TCC_CTRLA_PRESCALER k prescaler)
    let st7 := (st6.write (Reg.WAVE tcc) k.TCC_WAVE_WAVEGEN_NPWM).wait_SYNCBUSY tcc
      k.TCC_SYNCBUSY_WAVE
    let st8 := (st7.write (Reg.PER tcc) ((res + 2 ^ 32 - 1) % 2 ^ 32)).wait_SYNCBUSY tcc
      k.TCC_SYNCBUSY_PER
    let st9 := st8.write (Reg.CTRLA tcc) (st8.regs (Reg.CTRLA tcc) ||| k.TCC_CTRLA_ENABLE)
    (f_real, st9)
  match mode with
  | pwm_mode_t.PWM_LEFT => finish (st3.write_CTRLBCLR tcc k.TCC_CTRLBCLR_DIR)
  | pwm_mode_t.PWM_RIGHT => finish (st3.write_CTRLBSET tcc k.TCC_CTRLBSET_DIR)
  | _ => (0, st3)

/-- Source `pwm_init`: the returned frequency and the hardware state after the
call.  The device check and the prescaler computation come first; the pin loop
is `configure_pins`, the programming of the counter is `pwm_init_tcc`.
`freq * res` is a 32-bit unsigned product; `scale * res` is an `int` product that
is converted to unsigned for the division; either division by zero is `none`. -/
def pwm_init (k : Env) (st : Hw) (dev : Nat) (mode : pwm_mode_t) (freq res : Nat) :
    Option (Nat × Hw) :=
  if dev ≥ k.PWM_NUMOF then some (0, st)
  else
    let divisor := (freq * res) % 2 ^ 32
    if divisor = 0 then none
    else
      let ps := get_prescaler k (k.CLOCK_CORECLOCK / divisor) 1
      if ps.1 = 0xff then some (0, st)
      else
        let sr := ((ps.2 * (res : Int)) % 2 ^ 32).toNat
        if sr = 0 then none
        else
          let f_real := k.CLOCK_CORECLOCK / sr
          (k.pwm_config[dev]?).bind fun c =>
          (configure_pins k c c.chan_numof 0 st).bind fun st1 =>
          (poweron k st1 dev).bind fun st2 =>
          (_tcc k dev).map fun tcc =>
          pwm_init_tcc k tcc mode ps.1 res f_real st2

/-- Source `pwm_channels`. -/
def pwm_channels (k : Env) (dev : Nat) : Option Nat :=
  (k.pwm_config[dev]?).map fun c => c.chan_numof

/-- Source `pwm_set`: the hardware state after the call. -/
def pwm_set (k : Env) (st : Hw) (dev : Nat) (channel : Nat) (value : Nat) : Option Hw :=
  (k.pwm_config[dev]?).bind fun c =>
  if channel ≥ c.chan_numof then some st
  else
    (c.chan[channel]?).bind fun ch =>
    if ch.pin = k.GPIO_UNDEF then some st
    else
      (_chan k dev channel).bind fun chan =>
      (_tcc k dev).bind fun tcc =>
      if chan < 4 then
        some ((st.write (Reg.CC tcc chan) value).wait_SYNCBUSY tcc (k.TCC_SYNCBUSY_CC0 <<< chan))
      else
        let chan := chan - 4
        if chan < 4 then
          some ((st.write (Reg.CCB tcc chan) value).wait_SYNCBUSY tcc
            (k.TCC_SYNCBUSY_CCB0 <<< chan))
        else none

/-- Source `pwm_poweron`. -/
def pwm_poweron (k : Env) (st : Hw) (dev : Nat) : Option Hw :=
  (poweron k st dev).bind fun st1 =>
  (_tcc k dev).map fun t =>
    st1.write (Reg.CTRLA t) (st1.regs (Reg.CTRLA t) ||| k.TCC_CTRLA_ENABLE)

/-- Source `pwm_poweroff`. -/
def pwm_poweroff (k : Env) (st : Hw) (dev : Nat) : Option Hw :=
  (_tcc k dev).bind fun t =>
  let st1 := st.write (Reg.CTRLA t) (st.regs (Reg.CTRLA t) &&& not32 k.TCC_CTRLA_ENABLE)
  (_apbcmask_tcc k dev).bind fun mask =>
  let st2 := st1.write Reg.PM_APBCMASK (st1.regs Reg.PM_APBCMASK &&& not32 mask)
  (_clk_id k dev).bind fun id =>
  let st3 := st2.write Reg.GCLK_CLKCTRL (k.GCLK_CLKCTRL_GEN_GCLK7 ||| GCLK_CLKCTRL_ID k id)
  some st3.wait_GCLK_SYNCBUSY

/-! ## A concrete environment

The register constants of the SAMD21 vendor headers and a board table with a
six-channel, a two-channel and a one-channel device, used to evaluate the driver
on concrete inputs. -/

/-- Board table of the concrete environment. -/
def demo_config : List pwm_conf_t :=
  [ { dev := Tcc.TCC0,
      chan := [⟨10, 4, 0⟩, ⟨11, 4, 1⟩, ⟨12, 5, 2⟩, ⟨13, 5, 3⟩, ⟨14, 5, 4⟩, ⟨15, 5, 5⟩],
      chan_numof := 6 },
    { dev := Tcc.TCC1, chan := [⟨6, 4, 0⟩, ⟨0xffffffff, 4, 1⟩], chan_numof := 2 },
    { dev := Tcc.TCC2, chan := [⟨16, 4, 0⟩], chan_numof := 1 } ]

/-- SAMD21 register constants with a 48 MHz core clock. -/
def samd21 : Env where
  CLOCK_CORECLOCK := 48000000
  PWM_NUMOF := 3
  pwm_config := demo_config
  GPIO_UNDEF := 0xffffffff
  GPIO_OUT := 1
  has_TCC3 := false
  TCC0_GCLK_ID := 26
  TCC1_GCLK_ID := 26
  TCC2_GCLK_ID := 27
  TCC3_GCLK_ID := 37
  PM_APBCMASK_TCC0 := 0x100
  PM_APBCMASK_TCC1 := 0x200
  PM_APBCMASK_TCC2 := 0x400
  PM_APBCMASK_TCC3 := 0x1000000
  GCLK_CLKCTRL_CLKEN := 0x4000
  GCLK_CLKCTRL_GEN_GCLK0 := 0
  GCLK_CLKCTRL_GEN_GCLK7 := 0x700
  GCLK_CLKCTRL_ID_Pos := 0
  GCLK_CLKCTRL_ID_Msk := 0x3f
  TCC_CTRLA_SWRST := 1
  TCC_CTRLA_ENABLE := 2
  TCC_CTRLA_PRESCALER_Pos := 8
  TCC_CTRLA_PRESCALER_Msk := 0x700
  TCC_CTRLA_PRESCSYNC_GCLK_Val := 0
  TCC_CTRLA_PRESCALER_DIV4_Val := 2
  TCC_CTRLA_PRESCALER_DIV8_Val := 3
  TCC_CTRLA_PRESCALER_DIV16_Val := 4
  TCC_CTRLA_PRESCALER_DIV64_Val := 5
  TCC_CTRLA_PRESCALER_DIV256_Val := 6
  TCC_CTRLA_PRESCALER_DIV1024_Val := 7
  TCC_CTRLBCLR_DIR := 1
  TCC_CTRLBSET_DIR := 1
  TCC_WAVE_WAVEGEN_NPWM := 2
  TCC_SYNCBUSY_SWRST := 1
  TCC_SYNCBUSY_CTRLB := 4
  TCC_SYNCBUSY_WAVE := 0x40
  TCC_SYNCBUSY_PER := 0x80
  TCC_SYNCBUSY_CC0 := 0x100
  TCC_SYNCBUSY_CCB0 := 0x80000

/-- Register file with every cell zero and an empty trace. -/
def Hw.zero : Hw :=
  { regs := fun _ => 0, trace := [] }

/-! ## Predicates used by the statements -/

/-- The six divider codes are values of the three-bit prescaler field. -/
def PrescalerCodesOK (k : Env) : Prop :=
  k.TCC_CTRLA_PRESCALER_DIV4_Val < 8 ∧ k.TCC_CTRLA_PRESCALER_DIV8_Val < 8 ∧
  k.TCC_CTRLA_PRESCALER_DIV16_Val < 8 ∧ k.TCC_CTRLA_PRESCALER_DIV64_Val < 8 ∧
  k.TCC_CTRLA_PRESCALER_DIV256_Val < 8 ∧ k.TCC_CTRLA_PRESCALER_DIV1024_Val < 8

instance (k : Env) : Decidable (PrescalerCodesOK k) := by
  unfold PrescalerCodesOK; infer_instance

/-- The divider ladder of the prescaler selection. -/
def ladder : List Int :=
  [4, 8, 16, 64, 256, 1024]

/-- Specification wording: `s` is the smallest ladder element that is at least
`target`. -/
def SmallestLadderGE (target : Nat) (s : Int) : Prop :=
  s ∈ ladder ∧ (target : Int) ≤ s ∧ ∀ l ∈ ladder, (target : Int) ≤ l → s ≤ l

/-- Specification wording: `s` is the largest ladder element that is at most
`target`. -/
def LargestLadderLE (target : Nat) (s : Int) : Prop :=
  s ∈ ladder ∧ s ≤ (target : Int) ∧ ∀ l ∈ ladder, l ≤ (target : Int) → l ≤ s

/-- The prescaler field of a `CTRLA` value. -/
def prescalerField (k : Env) (ctrla : Nat) : Nat :=
  (ctrla &&& k.TCC_CTRLA_PRESCALER_Msk) >>> k.TCC_CTRLA_PRESCALER_Pos

/-- The chip has the counter instance, so that the lookups `_clk_id` and
`_apbcmask_tcc` do not run into their closing `assert(0)`. -/
def KnownTcc (k : Env) (t : Tcc) : Prop :=
  t = Tcc.TCC3 → k.has_TCC3 = true

instance (k : Env) (t : Tcc) : Decidable (KnownTcc k t) := by
  unfold KnownTcc; infer_instance

/-- Facts about the register layout of the vendor header that the bit-level
statements rely on: the constants fit a 32-bit register, the prescaler field is
three bits wide, the enable bit, the reset strobe and the prescaler
synchronisation value lie outside the prescaler field, and the direction bit is
the same in `CTRLBCLR` and `CTRLBSET`. -/
def LayoutOK (k : Env) : Prop :=
  0 < k.TCC_CTRLA_ENABLE ∧ 0 < k.TCC_CTRLBSET_DIR ∧
  k.TCC_CTRLA_ENABLE < 2 ^ 32 ∧
  k.TCC_CTRLA_PRESCALER_Msk = 7 <<< k.TCC_CTRLA_PRESCALER_Pos ∧
  k.TCC_CTRLA_PRESCALER_Msk < 2 ^ 32 ∧
  k.TCC_CTRLA_ENABLE &&& k.TCC_CTRLA_PRESCALER_Msk = 0 ∧
  k.TCC_CTRLA_PRESCSYNC_GCLK_Val &&& k.TCC_CTRLA_PRESCALER_Msk = 0 ∧
  k.TCC_CTRLA_SWRST &&& k.TCC_CTRLA_ENABLE = 0 ∧
  k.TCC_CTRLBCLR_DIR = k.TCC_CTRLBSET_DIR ∧
  k.TCC_CTRLBSET_DIR < 2 ^ 32 ∧
  k.PM_APBCMASK_TCC0 < 2 ^ 32 ∧ k.PM_APBCMASK_TCC1 < 2 ^ 32 ∧
  k.PM_APBCMASK_TCC2 < 2 ^ 32 ∧ k.PM_APBCMASK_TCC3 < 2 ^ 32

instance (k : Env) : Decidable (LayoutOK k) := by
  unfold LayoutOK; infer_instance

/-- The event is a call of the pin collaborator. -/
def Event.isPin : Event → Bool
  | Event.gpio_init _ _ => true
  | Event.gpio_init_mux _ _ => true
  | _ => false

/-- The event is a store to some `CTRLA` register with the enable bit set. -/
def Event.setsEnable (k : Env) : Event → Bool
  | Event.write (Reg.CTRLA _) v => decide (v &&& k.TCC_CTRLA_ENABLE ≠ 0)
  | _ => false

/-- The waveform configuration of counter `t` is the same in both states: period,
prescaler field, `CTRLB` (count direction), waveform register and all compare
registers of both banks. -/
def SameWaveform (k : Env) (t : Tcc) (st st1 : Hw) : Prop :=
  st1.regs (Reg.PER t) = st.regs (Reg.PER t) ∧
  prescalerField k (st1.regs (Reg.CTRLA t)) = prescalerField k (st.regs (Reg.CTRLA t)) ∧
  st1.regs (Reg.CTRLB t) = st.regs (Reg.CTRLB t) ∧
  st1.regs (Reg.WAVE t) = st.regs (Reg.WAVE t) ∧
  (∀ i, st1.regs (Reg.CC t i) = st.regs (Reg.CC t i)) ∧
  (∀ i, st1.regs (Reg.CCB t i) = st.regs (Reg.CCB t i))

/-! ## Bit-level facts -/

theorem testBit_lt_32 {m i : Nat} (hm : m < 2 ^ 32) (h : m.testBit i = true) : i < 32 := by
  by_contra hi
  have h1 : 2 ^ i ≤ m := Nat.testBit_implies_ge h
  have h2 : 2 ^ 32 ≤ 2 ^ i := Nat.pow_le_pow_right (by decide) (by omega)
  omega

theorem testBit_mask32 (i : Nat) : (0xFFFFFFFF : Nat).testBit i = decide (i < 32) :=
  Nat.testBit_two_pow_sub_one 32 i

theorem or_and_self (x e : Nat) : (x ||| e) &&& e = e := by
  apply Nat.eq_of_testBit_eq
  intro i
  simp only [Nat.testBit_and, Nat.testBit_or]
  cases x.testBit i <;> cases e.testBit i <;> rfl

theorem and_not32_and_self (x e : Nat) (he : e < 2 ^ 32) : (x &&& not32 e) &&& e = 0 := by
  apply Nat.eq_of_testBit_eq
  intro i
  simp only [not32, Nat.testBit_and, Nat.testBit_xor, testBit_mask32, Nat.zero_testBit]
  cases h : e.testBit i
  · simp
  · have := testBit_lt_32 he h
    simp [this]

theorem or_and_of_disjoint (x e m : Nat) (h : e &&& m = 0) : (x ||| e) &&& m = x &&& m := by
  apply Nat.eq_of_testBit_eq
  intro i
  have hi := congrArg (fun n => n.testBit i) h
  simp only [Nat.testBit_and, Nat.zero_testBit] at hi
  simp only [Nat.testBit_and, Nat.testBit_or]
  cases hx : x.testBit i <;> cases he : e.testBit i <;> cases hm : m.testBit i <;> simp_all

theorem and_not32_and_of_disjoint (x e m : Nat) (h : e &&& m = 0) (hm : m < 2 ^ 32) :
    (x &&& not32 e) &&& m = x &&& m := by
  apply Nat.eq_of_testBit_eq
  intro i
  have hi := congrArg (fun n => n.testBit i) h
  simp only [Nat.testBit_and, Nat.zero_testBit] at hi
  simp only [not32, Nat.testBit_and, Nat.testBit_xor, testBit_mask32]
  cases hm1 : m.testBit i
  · simp
  · have := testBit_lt_32 hm hm1
    cases hx : x.testBit i <;> cases he : e.testBit i <;> simp_all

theorem and_not32_or_self (x e : Nat) (hx : x < 2 ^ 32) (he : x &&& e = e) :
    (x &&& not32 e) ||| e = x := by
  apply Nat.eq_of_testBit_eq
  intro i
  have hi := congrArg (fun n => n.testBit i) he
  simp only [Nat.testBit_and] at hi
  simp only [not32, Nat.testBit_and, Nat.testBit_or, Nat.testBit_xor, testBit_mask32]
  cases hx1 : x.testBit i
  · cases he1 : e.testBit i <;> simp_all
  · have := testBit_lt_32 hx hx1
    cases he1 : e.testBit i <;> simp_all

theorem field_insert_extract (p c : Nat) (hc : c < 8) :
    (((7 <<< p) &&& (c <<< p)) &&& (7 <<< p)) >>> p = c := by
  apply Nat.eq_of_testBit_eq
  intro i
  simp only [Nat.testBit_shiftRight, Nat.testBit_and, Nat.testBit_shiftLeft]
  have h7 : (7 : Nat).testBit i = decide (i < 3) := Nat.testBit_two_pow_sub_one 3 i
  have hp : p + i - p = i := by omega
  rw [hp, h7]
  cases hci : c.testBit i
  · simp
  · have : i < 3 := by
      by_contra hi
      have h1 : 2 ^ i ≤ c := Nat.testBit_implies_ge hci
      have h2 : 2 ^ 3 ≤ 2 ^ i := Nat.pow_le_pow_right (by decide) (by omega)
      omega
    simp [this]

/-! ## Prescaler selection -/

/-- C1: `get_prescaler` follows the documented table.  Target 0 gives the sentinel
`0xff` and leaves `*scale` as it was; 512 and above gives the DIV1024 code with
scale 1024; 128..511 DIV256 with 256; 32..127 DIV64 with 64; 12..31 DIV16 with
16; 6..11 DIV8 with 8; 3..5 DIV4 with 4; targets 1 and 2 pass through as code
`target - 1` with scale `target`.  The sentinel is returned exactly for target
0, and the scale is at least 1 for every target from 1 on. -/
theorem get_prescaler_table (k : Env) (target : Nat) (s0 : Int) (hk : PrescalerCodesOK k) :
    (target = 0 → get_prescaler k target s0 = (0xff, s0)) ∧
    (512 ≤ target → get_prescaler k target s0 = (k.TCC_CTRLA_PRESCALER_DIV1024_Val, 1024)) ∧
    (128 ≤ target → target ≤ 511 →
      get_prescaler k target s0 = (k.TCC_CTRLA_PRESCALER_DIV256_Val, 256)) ∧
    (32 ≤ target → target ≤ 127 →
      get_prescaler k target s0 = (k.TCC_CTRLA_PRESCALER_DIV64_Val, 64)) ∧
    (12 ≤ target → target ≤ 31 →
      get_prescaler k target s0 = (k.TCC_CTRLA_PRESCALER_DIV16_Val, 16)) ∧
    (6 ≤ target → target ≤ 11 →
      get_prescaler k target s0 = (k.TCC_CTRLA_PRESCALER_DIV8_Val, 8)) ∧
    (3 ≤ target → target ≤ 5 →
      get_prescaler k target s0 = (k.TCC_CTRLA_PRESCALER_DIV4_Val, 4)) ∧
    (target = 1 ∨ target = 2 → get_prescaler k target s0 = (target - 1, (target : Int))) ∧
    ((get_prescaler k target s0).1 = 0xff ↔ target = 0) ∧
    (1 ≤ target → 1 ≤ (get_prescaler k target s0).2) := by
  obtain ⟨h4, h8, h16, h64, h256, h1024⟩ := hk
  have m4 := Nat.mod_eq_of_lt (show k.TCC_CTRLA_PRESCALER_DIV4_Val < 256 by omega)
  have m8 := Nat.mod_eq_of_lt (show k.TCC_CTRLA_PRESCALER_DIV8_Val < 256 by omega)
  have m16 := Nat.mod_eq_of_lt (show k.TCC_CTRLA_PRESCALER_DIV16_Val < 256 by omega)
  have m64 := Nat.mod_eq_of_lt (show k.TCC_CTRLA_PRESCALER_DIV64_Val < 256 by omega)
  have m256 := Nat.mod_eq_of_lt (show k.TCC_CTRLA_PRESCALER_DIV256_Val < 256 by omega)
  have m1024 := Nat.mod_eq_of_lt (show k.TCC_CTRLA_PRESCALER_DIV1024_Val < 256 by omega)
  unfold get_prescaler
  rw [m4, m8, m16, m64, m256, m1024]
  refine ⟨?_, ?_, ?_, ?_, ?_, ?_, ?_, ?_, ?_, ?_⟩
  · intro h; rw [if_pos h]
  · intro h; rw [if_neg (by omega), if_pos (by omega)]
  · intro h h1; rw [if_neg (by omega), if_neg (by omega), if_pos (by omega)]
  · intro h h1; rw [if_neg (by omega), if_neg (by omega), if_neg (by omega), if_pos (by omega)]
  · intro h h1
    rw [if_neg (by omega), if_neg (by omega), if_neg (by omega), if_neg (by omega),
      if_pos (by omega)]
  · intro h h1
    rw [if_neg (by omega), if_neg (by omega), if_neg (by omega), if_neg (by omega),
      if_neg (by omega), if_pos (by omega)]
  · intro h h1
    rw [if_neg (by omega), if_neg (by omega), if_neg (by omega), if_neg (by omega),
      if_neg (by omega), if_neg (by omega), if_pos (by omega)]
  · intro h
    rw [if_neg (by omega), if_neg (by omega), if_neg (by omega), if_neg (by omega),
      if_neg (by omega), if_neg (by omega), if_neg (by omega),
      Nat.mod_eq_of_lt (show target - 1 < 256 by omega)]
  · split_ifs <;> dsimp only <;> omega
  · intro h
    split_ifs <;> dsimp only <;> omega

theorem get_prescaler_table_witness :
    PrescalerCodesOK samd21 ∧ get_prescaler samd21 700 1 = (7, 1024) ∧
    get_prescaler samd21 2 1 = (1, 2) :=
  ⟨by decide, (get_prescaler_table samd21 700 1 (by decide)).2.1 (by decide),
    (get_prescaler_table samd21 2 1 (by decide)).2.2.2.2.2.2.2.1 (Or.inr rfl)⟩


/-- C3 fails at target 5: the chosen scale is 4, which is below the target and is
not the smallest ladder element that is at least 5 (that would be 8). -/
theorem get_prescaler_not_smallest_cover :
    (get_prescaler samd21 5 1).2 = 4 ∧
    ¬ ((5 : Int) ≤ (get_prescaler samd21 5 1).2) ∧
    ¬ SmallestLadderGE 5 (get_prescaler samd21 5 1).2 := by
  refine ⟨by decide, by decide, ?_⟩
  intro h
  exact absurd h.2.1 (by decide)

/-- C3, amended: for a target divisor from 5 to 1024 the chosen scale is a ladder
element.  It is the smallest ladder element that is at least the target when the
target lies in 6..8, 12..16, 32..64, 128..256 or 512..1024; for the remaining
targets (5, 9..11, 17..31, 65..127, 257..511) it is the largest ladder element
that is at most the target, and so lies below the target. -/
theorem get_prescaler_ladder (k : Env) (target : Nat) (s0 : Int)
    (hlo : 5 ≤ target) (hhi : target ≤ 1024) :
    (get_prescaler k target s0).2 ∈ ladder ∧
    ((6 ≤ target ∧ target ≤ 8) ∨ (12 ≤ target ∧ target ≤ 16) ∨ (32 ≤ target ∧ target ≤ 64) ∨
        (128 ≤ target ∧ target ≤ 256) ∨ 512 ≤ target →
      SmallestLadderGE target (get_prescaler k target s0).2) ∧
    (target = 5 ∨ (9 ≤ target ∧ target ≤ 11) ∨ (17 ≤ target ∧ target ≤ 31) ∨
        (65 ≤ target ∧ target ≤ 127) ∨ (257 ≤ target ∧ target ≤ 511) →
      LargestLadderLE target (get_prescaler k target s0).2 ∧
        (get_prescaler k target s0).2 < (target : Int)) := by
  unfold get_prescaler SmallestLadderGE LargestLadderLE ladder
  simp only [List.mem_cons, List.mem_nil_iff, or_false, forall_eq_or_imp, forall_eq]
  refine ⟨?_, ?_, ?_⟩
  · split_ifs <;> dsimp only <;> omega
  · intro h
    split_ifs <;> dsimp only <;> omega
  · intro h
    split_ifs <;> dsimp only <;> omega

theorem get_prescaler_ladder_witness :
    LargestLadderLE 5 (get_prescaler samd21 5 1).2 ∧ SmallestLadderGE 6 (get_prescaler samd21 6 1).2 :=
  ⟨((get_prescaler_ladder samd21 5 1 (by decide) (by decide)).2.2 (Or.inl rfl)).1,
    (get_prescaler_ladder samd21 6 1 (by decide) (by decide)).2.1 (Or.inl ⟨by decide, by decide⟩)⟩

/-! ## Table lookups, pin loop and clock gate -/

theorem tcc_of_config (k : Env) (dev : Nat) (c : pwm_conf_t) (hc : k.pwm_config[dev]? = some c) :
    _tcc k dev = some c.dev := by
  simp [_tcc, hc]

theorem apbcmask_of_known (k : Env) (dev : Nat) (c : pwm_conf_t)
    (hc : k.pwm_config[dev]? = some c) (ht : KnownTcc k c.dev) :
    ∃ mask, _apbcmask_tcc k dev = some mask ∧ (LayoutOK k → mask < 2 ^ 32) := by
  unfold _apbcmask_tcc
  rw [tcc_of_config k dev c hc]
  unfold KnownTcc at ht
  cases h : c.dev
  · exact ⟨_, by simp, fun hl => hl.2.2.2.2.2.2.2.2.2.2.1⟩
  · exact ⟨_, by simp, fun hl => hl.2.2.2.2.2.2.2.2.2.2.2.1⟩
  · exact ⟨_, by simp, fun hl => hl.2.2.2.2.2.2.2.2.2.2.2.2.1⟩
  · exact ⟨_, by simp [ht h], fun hl => hl.2.2.2.2.2.2.2.2.2.2.2.2.2⟩

theorem clk_id_of_known (k : Env) (dev : Nat) (c : pwm_conf_t)
    (hc : k.pwm_config[dev]? = some c) (ht : KnownTcc k c.dev) :
    ∃ id, _clk_id k dev = some id := by
  unfold _clk_id
  rw [tcc_of_config k dev c hc]
  unfold KnownTcc at ht
  cases h : c.dev
  · exact ⟨k.TCC0_GCLK_ID, by simp⟩
  · exact ⟨k.TCC1_GCLK_ID, by simp⟩
  · exact ⟨k.TCC2_GCLK_ID, by simp⟩
  · exact ⟨k.TCC3_GCLK_ID, by simp [ht h]⟩

theorem configure_pins_spec (k : Env) (c : pwm_conf_t) :
    ∀ (n i : Nat) (st : Hw), i + n ≤ c.chan.length →
      ∃ st1, configure_pins k c n i st = some st1 ∧ st1.regs = st.regs ∧
        ∃ evs, st1.trace = st.trace ++ evs ∧ ∀ e ∈ evs, e.isPin = true := by
  intro n
  induction n with
  | zero =>
    intro i st _
    exact ⟨st, rfl, rfl, [], by simp, by simp⟩
  | succ n ih =>
    intro i st h
    have hi : i < c.chan.length := by omega
    unfold configure_pins
    rw [List.getElem?_eq_getElem hi]
    dsimp only
    split_ifs with hp
    · obtain ⟨st1, h1, h2, evs, h3, h4⟩ :=
        ih (i + 1) ((st.gpio_init c.chan[i].pin k.GPIO_OUT).gpio_init_mux c.chan[i].pin c.chan[i].mux)
          (by omega)
      refine ⟨st1, h1, by rw [h2]; rfl,
        [Event.gpio_init c.chan[i].pin k.GPIO_OUT, Event.gpio_init_mux c.chan[i].pin c.chan[i].mux]
          ++ evs, ?_, ?_⟩
      · rw [h3]; simp [Hw.gpio_init, Hw.gpio_init_mux]
      · intro e he
        simp only [List.cons_append, List.nil_append, List.mem_cons] at he
        rcases he with rfl | rfl | he
        · rfl
        · rfl
        · exact h4 e he
    · exact ih (i + 1) st (by omega)

theorem poweron_spec (k : Env) (st : Hw) (dev : Nat) (mask id : Nat)
    (hm : _apbcmask_tcc k dev = some mask) (hi : _clk_id k dev = some id) :
    poweron k st dev = some
      ((st.write Reg.PM_APBCMASK (st.regs Reg.PM_APBCMASK ||| mask)).write Reg.GCLK_CLKCTRL
        (k.GCLK_CLKCTRL_CLKEN ||| k.GCLK_CLKCTRL_GEN_GCLK0 ||| GCLK_CLKCTRL_ID k id)).wait_GCLK_SYNCBUSY := by
  simp [poweron, hm, hi]

/-! ## Initialisation -/

/-- Scale computed by `get_prescaler` is between 1 and 1024 when the target is not zero. -/
theorem get_prescaler_scale_bounds (k : Env) (target : Nat) (h : (get_prescaler k target 1).1 ≠ 0xff) :
    1 ≤ (get_prescaler k target 1).2 ∧ (get_prescaler k target 1).2 ≤ 1024 := by
  unfold get_prescaler at h ⊢
  split_ifs at h ⊢ <;> dsimp only at h ⊢ <;> omega

theorem scale_times_res (s : Int) (res : Nat) (h1 : 1 ≤ s) (h2 : s ≤ 1024) (hr : res < 2 ^ 16) :
    ((s * (res : Int)) % 2 ^ 32).toNat = s.toNat * res := by
  obtain ⟨n, rfl⟩ := Int.eq_ofNat_of_zero_le (by omega : 0 ≤ s)
  have hn : n ≤ 1024 := by omega
  have hlt : n * res < 2 ^ 32 := by
    calc n * res ≤ 1024 * res := Nat.mul_le_mul_right _ hn
      _ < 2 ^ 32 := by omega
  have : ((n : Int) * (res : Int)) % 2 ^ 32 = ((n * res : Nat) : Int) := by
    rw [← Nat.cast_mul]
    have h := Int.emod_eq_of_lt (a := ((n * res : Nat) : Int)) (b := 2 ^ 32) (by positivity)
      (by exact_mod_cast hlt)
    exact h
  rw [this, Int.toNat_ofNat, Int.toNat_ofNat]

theorem pwm_init_run (k : Env) (st : Hw) (dev : Nat) (mode : pwm_mode_t) (freq res : Nat)
    (c : pwm_conf_t) (hdev : dev < k.PWM_NUMOF) (hc : k.pwm_config[dev]? = some c)
    (hn : c.chan_numof ≤ c.chan.length) (ht : KnownTcc k c.dev)
    (hd : (freq * res) % 2 ^ 32 ≠ 0)
    (hps : (get_prescaler k (k.CLOCK_CORECLOCK / ((freq * res) % 2 ^ 32)) 1).1 ≠ 0xff)
    (hres : res < 2 ^ 16) :
    ∃ st1 mask id,
      configure_pins k c c.chan_numof 0 st = some st1 ∧
      _apbcmask_tcc k dev = some mask ∧ _clk_id k dev = some id ∧
      pwm_init k st dev mode freq res = some
        (pwm_init_tcc k c.dev mode
          (get_prescaler k (k.CLOCK_CORECLOCK / ((freq * res) % 2 ^ 32)) 1).1 res
          (k.CLOCK_CORECLOCK /
            ((get_prescaler k (k.CLOCK_CORECLOCK / ((freq * res) % 2 ^ 32)) 1).2.toNat * res))
          (((st1.write Reg.PM_APBCMASK (st1.regs Reg.PM_APBCMASK ||| mask)).write
            Reg.GCLK_CLKCTRL
            (k.GCLK_CLKCTRL_CLKEN ||| k.GCLK_CLKCTRL_GEN_GCLK0 ||| GCLK_CLKCTRL_ID k id)).wait_GCLK_SYNCBUSY)) := by
  obtain ⟨st1, h1, -, -⟩ := configure_pins_spec k c c.chan_numof 0 st (by omega)
  obtain ⟨mask, hm, -⟩ := apbcmask_of_known k dev c hc ht
  obtain ⟨id, hi⟩ := clk_id_of_known k dev c hc ht
  refine ⟨st1, mask, id, h1, hm, hi, ?_⟩
  obtain ⟨hs1, hs2⟩ := get_prescaler_scale_bounds k _ hps
  have hsr := scale_times_res _ res hs1 hs2 hres
  have hres0 : res ≠ 0 := by
    rintro rfl
    simp at hd
  have hsr0 : (get_prescaler k (k.CLOCK_CORECLOCK / ((freq * res) % 2 ^ 32)) 1).2.toNat * res ≠ 0 := by
    have : 1 ≤ (get_prescaler k (k.CLOCK_CORECLOCK / ((freq * res) % 2 ^ 32)) 1).2.toNat := by omega
    exact Nat.mul_ne_zero (by omega) hres0
  unfold pwm_init
  rw [if_neg (by omega)]
  simp only []
  rw [if_neg hd, if_neg hps, hsr, if_neg hsr0, hc]
  simp only [Option.some_bind, h1, poweron_spec k st1 dev mask id hm hi,
    tcc_of_config k dev c hc, Option.map_some']

theorem get_prescaler_code_lt (k : Env) (target : Nat) (s0 : Int) (hk : PrescalerCodesOK k)
    (h : (get_prescaler k target s0).1 ≠ 0xff) : (get_prescaler k target s0).1 < 8 := by
  obtain ⟨h4, h8, h16, h64, h256, h1024⟩ := hk
  unfold get_prescaler at h ⊢
  split_ifs at h ⊢ <;> dsimp only at h ⊢ <;> omega

theorem prescalerField_ctrla (k : Env) (code : Nat) (hl : LayoutOK k) (hcode : code < 8) :
    prescalerField k
      ((k.TCC_CTRLA_PRESCSYNC_GCLK_Val ||| TCC_CTRLA_PRESCALER k code) ||| k.TCC_CTRLA_ENABLE)
      = code := by
  obtain ⟨-, -, -, hm, -, hem, hgm, -⟩ := hl
  unfold prescalerField
  rw [or_and_of_disjoint _ _ _ hem, Nat.lor_comm, or_and_of_disjoint _ _ _ hgm]
  unfold TCC_CTRLA_PRESCALER
  rw [hm]
  exact field_insert_extract _ _ hcode

theorem pwm_init_tcc_regs (k : Env) (tcc : Tcc) (mode : pwm_mode_t) (prescaler res f_real : Nat)
    (st2 : Hw) (hmode : mode = pwm_mode_t.PWM_LEFT ∨ mode = pwm_mode_t.PWM_RIGHT) :
    (pwm_init_tcc k tcc mode prescaler res f_real st2).1 = f_real ∧
    (pwm_init_tcc k tcc mode prescaler res f_real st2).2.regs (Reg.PER tcc)
      = (res + 2 ^ 32 - 1) % 2 ^ 32 ∧
    (pwm_init_tcc k tcc mode prescaler res f_real st2).2.regs (Reg.WAVE tcc)
      = k.TCC_WAVE_WAVEGEN_NPWM ∧
    (pwm_init_tcc k tcc mode prescaler res f_real st2).2.regs (Reg.CTRLA tcc)
      = (k.TCC_CTRLA_PRESCSYNC_GCLK_Val ||| TCC_CTRLA_PRESCALER k prescaler)
          ||| k.TCC_CTRLA_ENABLE ∧
    (mode = pwm_mode_t.PWM_LEFT →
      (pwm_init_tcc k tcc mode prescaler res f_real st2).2.regs (Reg.CTRLB tcc)
        = st2.regs (Reg.CTRLB tcc) &&& not32 k.TCC_CTRLBCLR_DIR) ∧
    (mode = pwm_mode_t.PWM_RIGHT →
      (pwm_init_tcc k tcc mode prescaler res f_real st2).2.regs (Reg.CTRLB tcc)
        = st2.regs (Reg.CTRLB tcc) ||| k.TCC_CTRLBSET_DIR) := by
  rcases hmode with rfl | rfl <;>
    simp [pwm_init_tcc, Hw.write, Hw.wait_SYNCBUSY, Hw.write_CTRLBCLR, Hw.write_CTRLBSET, Hw.setReg]

/-- C9: for a valid device, left or right mode and `freq`, `res` for which
`get_prescaler` does not return the sentinel, `pwm_init` returns, and in the state
it leaves the period register holds `res - 1`, the prescaler field of `CTRLA`
holds the divider code of `get_prescaler`, the waveform register holds normal
PWM, the direction bit is clear (count up) for `PWM_LEFT` and set (count down) for
`PWM_RIGHT`, and the enable bit of `CTRLA` is set. -/
theorem pwm_init_programs_counter (k : Env) (st : Hw) (dev : Nat) (mode : pwm_mode_t)
    (freq res : Nat) (c : pwm_conf_t)
    (hdev : dev < k.PWM_NUMOF) (hc : k.pwm_config[dev]? = some c)
    (hn : c.chan_numof ≤ c.chan.length) (ht : KnownTcc k c.dev)
    (hl : LayoutOK k) (hk : PrescalerCodesOK k)
    (hmode : mode = pwm_mode_t.PWM_LEFT ∨ mode = pwm_mode_t.PWM_RIGHT)
    (hd : (freq * res) % 2 ^ 32 ≠ 0)
    (hps : (get_prescaler k (k.CLOCK_CORECLOCK / ((freq * res) % 2 ^ 32)) 1).1 ≠ 0xff)
    (hres : res < 2 ^ 16) :
    ∃ f st1, pwm_init k st dev mode freq res = some (f, st1) ∧
      st1.regs (Reg.PER c.dev) = res - 1 ∧
      prescalerField k (st1.regs (Reg.CTRLA c.dev))
        = (get_prescaler k (k.CLOCK_CORECLOCK / ((freq * res) % 2 ^ 32)) 1).1 ∧
      st1.regs (Reg.WAVE c.dev) = k.TCC_WAVE_WAVEGEN_NPWM ∧
      (mode = pwm_mode_t.PWM_LEFT → st1.regs (Reg.CTRLB c.dev) &&& k.TCC_CTRLBSET_DIR = 0) ∧
      (mode = pwm_mode_t.PWM_RIGHT →
        st1.regs (Reg.CTRLB c.dev) &&& k.TCC_CTRLBSET_DIR = k.TCC_CTRLBSET_DIR) ∧
      st1.regs (Reg.CTRLA c.dev) &&& k.TCC_CTRLA_ENABLE = k.TCC_CTRLA_ENABLE := by
  obtain ⟨st1, mask, id, -, -, -, hrun⟩ :=
    pwm_init_run k st dev mode freq res c hdev hc hn ht hd hps hres
  obtain ⟨-, hper, hwave, hctrla, hleft, hright⟩ :=
    pwm_init_tcc_regs k c.dev mode
      (get_prescaler k (k.CLOCK_CORECLOCK / ((freq * res) % 2 ^ 32)) 1).1 res
      (k.CLOCK_CORECLOCK /
        ((get_prescaler k (k.CLOCK_CORECLOCK / ((freq * res) % 2 ^ 32)) 1).2.toNat * res))
      (((st1.write Reg.PM_APBCMASK (st1.regs Reg.PM_APBCMASK ||| mask)).write
        Reg.GCLK_CLKCTRL
        (k.GCLK_CLKCTRL_CLKEN ||| k.GCLK_CLKCTRL_GEN_GCLK0 ||| GCLK_CLKCTRL_ID k id)).wait_GCLK_SYNCBUSY)
      hmode
  revert hrun hper hwave hctrla hleft hright
  generalize pwm_init_tcc k c.dev mode _ res _ _ = r
  intro hrun hper hwave hctrla hleft hright
  have hres0 : res ≠ 0 := by
    rintro rfl
    simp at hd
  refine ⟨r.1, r.2, hrun, ?_, ?_, ?_, ?_, ?_, ?_⟩
  · rw [hper]; omega
  · rw [hctrla]
    exact prescalerField_ctrla k _ hl (get_prescaler_code_lt k _ 1 hk hps)
  · exact hwave
  · intro hm
    rw [hleft hm, hl.2.2.2.2.2.2.2.2.1]
    exact and_not32_and_self _ _ hl.2.2.2.2.2.2.2.2.2.1
  · intro hm
    rw [hright hm]
    exact or_and_self _ _
  · rw [hctrla]
    exact or_and_self _ _

theorem pwm_init_programs_counter_witness :
    ∃ f st1, pwm_init samd21 Hw.zero 0 pwm_mode_t.PWM_RIGHT 1000 256 = some (f, st1) ∧
      st1.regs (Reg.PER Tcc.TCC0) = 255 ∧
      prescalerField samd21 (st1.regs (Reg.CTRLA Tcc.TCC0)) = 6 ∧
      st1.regs (Reg.WAVE Tcc.TCC0) = 2 ∧
      (pwm_mode_t.PWM_RIGHT = pwm_mode_t.PWM_LEFT → st1.regs (Reg.CTRLB Tcc.TCC0) &&& 1 = 0) ∧
      (pwm_mode_t.PWM_RIGHT = pwm_mode_t.PWM_RIGHT → st1.regs (Reg.CTRLB Tcc.TCC0) &&& 1 = 1) ∧
      st1.regs (Reg.CTRLA Tcc.TCC0) &&& 2 = 2 :=
  pwm_init_programs_counter samd21 Hw.zero 0 pwm_mode_t.PWM_RIGHT 1000 256
    ⟨Tcc.TCC0, [⟨10, 4, 0⟩, ⟨11, 4, 1⟩, ⟨12, 5, 2⟩, ⟨13, 5, 3⟩, ⟨14, 5, 4⟩, ⟨15, 5, 5⟩], 6⟩
    (by decide) rfl (by decide) (by decide) (by decide) (by decide) (Or.inr rfl)
    (by decide) (by decide) (by decide)

theorem get_prescaler_scale_indep (k : Env) (target : Nat) (s0 s1 : Int)
    (h : (get_prescaler k target s1).1 ≠ 0xff) :
    (get_prescaler k target s0).2 = (get_prescaler k target s1).2 := by
  unfold get_prescaler at h ⊢
  split_ifs at h ⊢ <;> first | rfl | exact absurd rfl h

/-- C4: for a valid device and 16-bit `res`, a call `pwm_init(dev, PWM_LEFT, freq,
res)` that gets past the sentinel check returns `CLOCK_CORECLOCK / (scale * res)`,
where `scale` is what `get_prescaler` yields for the target
`CLOCK_CORECLOCK / (freq * res)` (the product as the code forms it, in 32 bits)
whatever value `*scale` had before; and every non-zero value the call returns is
that quotient.  The requested `freq` enters the result through `scale` only. -/
theorem pwm_init_effective_frequency (k : Env) (st : Hw) (dev : Nat) (freq res : Nat)
    (c : pwm_conf_t) (s0 : Int)
    (hdev : dev < k.PWM_NUMOF) (hc : k.pwm_config[dev]? = some c)
    (hn : c.chan_numof ≤ c.chan.length) (ht : KnownTcc k c.dev) (hres : res < 2 ^ 16) :
    ((freq * res) % 2 ^ 32 ≠ 0 →
      (get_prescaler k (k.CLOCK_CORECLOCK / ((freq * res) % 2 ^ 32)) 1).1 ≠ 0xff →
      ∃ st1, pwm_init k st dev pwm_mode_t.PWM_LEFT freq res = some
        (k.CLOCK_CORECLOCK /
          ((get_prescaler k (k.CLOCK_CORECLOCK / ((freq * res) % 2 ^ 32)) s0).2.toNat * res),
          st1)) ∧
    (∀ f st1, pwm_init k st dev pwm_mode_t.PWM_LEFT freq res = some (f, st1) → f ≠ 0 →
      f = k.CLOCK_CORECLOCK /
        ((get_prescaler k (k.CLOCK_CORECLOCK / ((freq * res) % 2 ^ 32)) s0).2.toNat * res)) := by
  have hA : (freq * res) % 2 ^ 32 ≠ 0 →
      (get_prescaler k (k.CLOCK_CORECLOCK / ((freq * res) % 2 ^ 32)) 1).1 ≠ 0xff →
      ∃ st1, pwm_init k st dev pwm_mode_t.PWM_LEFT freq res = some
        (k.CLOCK_CORECLOCK /
          ((get_prescaler k (k.CLOCK_CORECLOCK / ((freq * res) % 2 ^ 32)) s0).2.toNat * res),
          st1) := by
    intro hd hps
    obtain ⟨st1, mask, id, -, -, -, hrun⟩ :=
      pwm_init_run k st dev pwm_mode_t.PWM_LEFT freq res c hdev hc hn ht hd hps hres
    have h1 := (pwm_init_tcc_regs k c.dev pwm_mode_t.PWM_LEFT
      (get_prescaler k (k.CLOCK_CORECLOCK / ((freq * res) % 2 ^ 32)) 1).1 res
      (k.CLOCK_CORECLOCK /
        ((get_prescaler k (k.CLOCK_CORECLOCK / ((freq * res) % 2 ^ 32)) 1).2.toNat * res))
      (((st1.write Reg.PM_APBCMASK (st1.regs Reg.PM_APBCMASK ||| mask)).write
        Reg.GCLK_CLKCTRL
        (k.GCLK_CLKCTRL_CLKEN ||| k.GCLK_CLKCTRL_GEN_GCLK0 ||| GCLK_CLKCTRL_ID k id)).wait_GCLK_SYNCBUSY)
      (Or.inl rfl)).1
    revert hrun h1
    generalize pwm_init_tcc k c.dev pwm_mode_t.PWM_LEFT _ res _ _ = r
    intro hrun h1
    refine ⟨r.2, ?_⟩
    rw [hrun, get_prescaler_scale_indep k _ s0 1 hps, ← h1]
  refine ⟨hA, ?_⟩
  intro f st1 hf hf0
  by_cases hd : (freq * res) % 2 ^ 32 = 0
  · unfold pwm_init at hf
    rw [if_neg (by omega)] at hf
    simp only [] at hf
    rw [if_pos hd] at hf
    cases hf
  · by_cases hps : (get_prescaler k (k.CLOCK_CORECLOCK / ((freq * res) % 2 ^ 32)) 1).1 = 0xff
    · unfold pwm_init at hf
      rw [if_neg (by omega)] at hf
      simp only [] at hf
      rw [if_neg hd, if_pos hps] at hf
      simp only [Option.some.injEq, Prod.mk.injEq] at hf
      exact absurd hf.1.symm hf0
    · obtain ⟨st2, h2⟩ := hA hd hps
      rw [h2] at hf
      simp only [Option.some.injEq, Prod.mk.injEq] at hf
      exact hf.1.symm

theorem pwm_init_effective_frequency_witness :
    ∃ st1, pwm_init samd21 Hw.zero 1 pwm_mode_t.PWM_LEFT 1000 256 = some (732, st1) := by
  have h := (pwm_init_effective_frequency samd21 Hw.zero 1 1000 256
    ⟨Tcc.TCC1, [⟨6, 4, 0⟩, ⟨0xffffffff, 4, 1⟩], 2⟩ 0
    (by decide) rfl (by decide) (by decide) (by decide)).1 (by decide) (by decide)
  exact h

/-- Rejected device index: nothing is touched. -/
theorem pwm_init_invalid_dev (k : Env) (st : Hw) (dev : Nat) (mode : pwm_mode_t) (freq res : Nat)
    (hdev : k.PWM_NUMOF ≤ dev) : pwm_init k st dev mode freq res = some (0, st) := by
  unfold pwm_init
  rw [if_pos hdev]

/-- When the product `freq * res` fits 32 bits and exceeds the core clock, the
call fails before anything is touched. -/
theorem pwm_init_unreachable_no_wrap (k : Env) (st : Hw) (dev : Nat) (mode : pwm_mode_t)
    (freq res : Nat) (hfit : freq * res < 2 ^ 32) (hbig : k.CLOCK_CORECLOCK < freq * res) :
    pwm_init k st dev mode freq res = some (0, st) := by
  by_cases hdev : k.PWM_NUMOF ≤ dev
  · exact pwm_init_invalid_dev k st dev mode freq res hdev
  · unfold pwm_init
    rw [if_neg hdev]
    simp only []
    rw [Nat.mod_eq_of_lt hfit, if_neg (by omega), Nat.div_eq_of_lt hbig]
    rfl

/-- C2: the claim fails where the 32-bit product wraps.  With a 48 MHz core clock,
`freq = 2147483649` and `res = 2` the product exceeds the core clock, yet the code
sees `freq * res = 2`, selects the 1024 divider, issues 25 collaborator calls,
register stores and waits, leaves the counter enabled with period 1 and returns
23437 instead of 0. -/
theorem pwm_init_product_wraps :
    samd21.CLOCK_CORECLOCK < 2147483649 * 2 ∧
    (pwm_init samd21 Hw.zero 0 pwm_mode_t.PWM_LEFT 2147483649 2).map
      (fun r => (r.1, r.2.trace.length, r.2.regs (Reg.PER Tcc.TCC0),
        r.2.regs (Reg.CTRLA Tcc.TCC0))) = some (23437, 25, 1, 0x702) := by
  decide

/-- C5: the claim fails at `freq = 0`: the target divisor
`CLOCK_CORECLOCK / (freq * res)` is a division by zero, which happens before the
mode is looked at, so the call has no defined result (it does not return 0). -/
theorem pwm_init_center_zero_freq :
    (pwm_init samd21 Hw.zero 0 pwm_mode_t.PWM_CENTER 0 256).isNone = true := by
  decide

theorem pwm_init_tcc_unsupported (k : Env) (tcc : Tcc) (mode : pwm_mode_t)
    (prescaler res f_real : Nat) (st2 : Hw)
    (hl : mode ≠ pwm_mode_t.PWM_LEFT) (hr : mode ≠ pwm_mode_t.PWM_RIGHT) :
    pwm_init_tcc k tcc mode prescaler res f_real st2 =
      (0, (st2.write (Reg.CTRLA tcc) k.TCC_CTRLA_SWRST).wait_SYNCBUSY tcc k.TCC_SYNCBUSY_SWRST) := by
  cases mode <;> first | exact absurd rfl hl | exact absurd rfl hr | rfl

/-- An unsupported mode (centre-aligned or an unnamed enumerator) makes `pwm_init`
return 0 whenever the divisor computation is defined, and no store issued by the
call sets the enable bit of a `CTRLA` register. -/
theorem pwm_init_center_fails (k : Env) (st : Hw) (dev : Nat) (mode : pwm_mode_t)
    (freq res : Nat) (c : pwm_conf_t)
    (hl : mode ≠ pwm_mode_t.PWM_LEFT) (hr : mode ≠ pwm_mode_t.PWM_RIGHT)
    (hc : k.pwm_config[dev]? = some c)
    (hn : c.chan_numof ≤ c.chan.length) (ht : KnownTcc k c.dev) (hlay : LayoutOK k)
    (hd : (freq * res) % 2 ^ 32 ≠ 0) (hres : res < 2 ^ 16) :
    ∃ st1 evs, pwm_init k st dev mode freq res = some (0, st1) ∧
      st1.trace = st.trace ++ evs ∧ ∀ e ∈ evs, e.setsEnable k = false := by
  by_cases hdev : k.PWM_NUMOF ≤ dev
  · exact ⟨st, [], pwm_init_invalid_dev k st dev mode freq res hdev, by simp, by simp⟩
  · by_cases hps : (get_prescaler k (k.CLOCK_CORECLOCK / ((freq * res) % 2 ^ 32)) 1).1 = 0xff
    · refine ⟨st, [], ?_, by simp, by simp⟩
      unfold pwm_init
      rw [if_neg hdev]
      simp only []
      rw [if_neg hd, if_pos hps]
    · obtain ⟨st1, mask, id, hpins, -, -, hrun⟩ :=
        pwm_init_run k st dev mode freq res c (by omega) hc hn ht hd hps hres
      obtain ⟨s1, hs1, -, evs, hev, hpin⟩ := configure_pins_spec k c c.chan_numof 0 st (by omega)
      rw [hs1] at hpins
      cases hpins
      rw [pwm_init_tcc_unsupported k c.dev mode _ _ _ _ hl hr] at hrun
      refine ⟨_, evs ++ [Event.write Reg.PM_APBCMASK (st1.regs Reg.PM_APBCMASK ||| mask),
        Event.write Reg.GCLK_CLKCTRL
          (k.GCLK_CLKCTRL_CLKEN ||| k.GCLK_CLKCTRL_GEN_GCLK0 ||| GCLK_CLKCTRL_ID k id),
        Event.wait_GCLK_SYNCBUSY, Event.write (Reg.CTRLA c.dev) k.TCC_CTRLA_SWRST,
        Event.wait_SYNCBUSY c.dev k.TCC_SYNCBUSY_SWRST], hrun, ?_, ?_⟩
      · simp [Hw.write, Hw.wait_SYNCBUSY, Hw.wait_GCLK_SYNCBUSY, hev]
      · intro e he
        simp only [List.mem_append, List.mem_cons, List.mem_singleton, List.mem_nil_iff,
          or_false] at he
        rcases he with he | rfl | rfl | rfl | rfl | rfl
        · have := hpin e he
          cases e <;> simp_all [Event.isPin, Event.setsEnable]
        · rfl
        · rfl
        · rfl
        · simp [Event.setsEnable, hlay.2.2.2.2.2.2.2.1]
        · rfl

/-! ## Duty-cycle writes -/

theorem chan_of_config (k : Env) (dev channel : Nat) (c : pwm_conf_t) (ch : pwm_conf_chan_t)
    (hc : k.pwm_config[dev]? = some c) (hch : c.chan[channel]? = some ch) :
    _chan k dev channel = some ch.chan := by
  simp [_chan, hc, hch]

/-- C6: for a device of the table, a logical channel below the channel count
whose pin is defined and whose compare index `p` is below 8, `pwm_set` issues
exactly one register store followed by one wait: to `CC[p]` when `p < 4`, to
`CCB[p - 4]` when `p >= 4`.  That register then holds `value` as given (no
clamping), and every other register (the other compare registers, `PER`,
`CTRLA`, `WAVE`, `CTRLB`, the clock registers) keeps its value. -/
theorem pwm_set_writes_one_compare (k : Env) (st : Hw) (dev channel value : Nat)
    (c : pwm_conf_t) (ch : pwm_conf_chan_t)
    (hc : k.pwm_config[dev]? = some c) (hlt : channel < c.chan_numof)
    (hch : c.chan[channel]? = some ch) (hpin : ch.pin ≠ k.GPIO_UNDEF) (hp : ch.chan < 8) :
    ∃ st1, pwm_set k st dev channel value = some st1 ∧
      (ch.chan < 4 →
        st1.trace = st.trace ++ [Event.write (Reg.CC c.dev ch.chan) value,
          Event.wait_SYNCBUSY c.dev (k.TCC_SYNCBUSY_CC0 <<< ch.chan)] ∧
        st1.regs (Reg.CC c.dev ch.chan) = value ∧
        ∀ r, r ≠ Reg.CC c.dev ch.chan → st1.regs r = st.regs r) ∧
      (4 ≤ ch.chan →
        st1.trace = st.trace ++ [Event.write (Reg.CCB c.dev (ch.chan - 4)) value,
          Event.wait_SYNCBUSY c.dev (k.TCC_SYNCBUSY_CCB0 <<< (ch.chan - 4))] ∧
        st1.regs (Reg.CCB c.dev (ch.chan - 4)) = value ∧
        ∀ r, r ≠ Reg.CCB c.dev (ch.chan - 4) → st1.regs r = st.regs r) := by
  unfold pwm_set
  rw [hc, Option.some_bind, if_neg (by omega), hch, Option.some_bind, if_neg hpin,
    chan_of_config k dev channel c ch hc hch, Option.some_bind, tcc_of_config k dev c hc,
    Option.some_bind]
  by_cases h4 : ch.chan < 4
  · rw [if_pos h4]
    refine ⟨_, rfl, fun _ => ⟨by simp [Hw.write, Hw.wait_SYNCBUSY], ?_, ?_⟩, fun h => by omega⟩
    · simp [Hw.write, Hw.wait_SYNCBUSY, Hw.setReg]
    · intro r hr
      simp [Hw.write, Hw.wait_SYNCBUSY, Hw.setReg, hr]
  · rw [if_neg h4]
    simp only []
    rw [if_pos (by omega)]
    refine ⟨_, rfl, fun h => by omega, fun _ => ⟨by simp [Hw.write, Hw.wait_SYNCBUSY], ?_, ?_⟩⟩
    · simp [Hw.write, Hw.wait_SYNCBUSY, Hw.setReg]
    · intro r hr
      simp [Hw.write, Hw.wait_SYNCBUSY, Hw.setReg, hr]

theorem pwm_set_writes_one_compare_witness :
    ∃ st1, pwm_set samd21 Hw.zero 0 5 40000 = some st1 ∧
      st1.trace = [Event.write (Reg.CCB Tcc.TCC0 1) 40000, Event.wait_SYNCBUSY Tcc.TCC0 0x100000] ∧
      st1.regs (Reg.CCB Tcc.TCC0 1) = 40000 ∧
      ∀ r, r ≠ Reg.CCB Tcc.TCC0 1 → st1.regs r = 0 := by
  obtain ⟨st1, h, -, h2⟩ := pwm_set_writes_one_compare samd21 Hw.zero 0 5 40000
    ⟨Tcc.TCC0, [⟨10, 4, 0⟩, ⟨11, 4, 1⟩, ⟨12, 5, 2⟩, ⟨13, 5, 3⟩, ⟨14, 5, 4⟩, ⟨15, 5, 5⟩], 6⟩
    ⟨15, 5, 5⟩ rfl (by decide) rfl (by decide) (by decide)
  exact ⟨st1, h, h2 (by decide)⟩

/-- C7: for a device of the table, if the channel is not below the channel count,
or its pin is `GPIO_UNDEF`, `pwm_set` returns with the hardware state (registers
and trace, hence no store and no wait) unchanged.  Conversely, whenever a call
extends the trace, the channel is in range and its pin is defined. -/
theorem pwm_set_noop (k : Env) (st : Hw) (dev channel value : Nat) (c : pwm_conf_t)
    (hc : k.pwm_config[dev]? = some c) :
    ((c.chan_numof ≤ channel ∨ ∃ ch, c.chan[channel]? = some ch ∧ ch.pin = k.GPIO_UNDEF) →
      pwm_set k st dev channel value = some st) ∧
    (∀ st1, pwm_set k st dev channel value = some st1 → st1.trace ≠ st.trace →
      channel < c.chan_numof ∧ ∃ ch, c.chan[channel]? = some ch ∧ ch.pin ≠ k.GPIO_UNDEF) := by
  constructor
  · intro h
    unfold pwm_set
    rw [hc, Option.some_bind]
    by_cases hge : c.chan_numof ≤ channel
    · rw [if_pos hge]
    · rw [if_neg hge]
      rcases h with h | ⟨ch, hch, hpin⟩
      · exact absurd h hge
      · rw [hch, Option.some_bind, if_pos hpin]
  · intro st1 h hne
    unfold pwm_set at h
    rw [hc, Option.some_bind] at h
    by_cases hge : c.chan_numof ≤ channel
    · rw [if_pos hge] at h
      cases h
      exact absurd rfl hne
    · rw [if_neg hge] at h
      refine ⟨by omega, ?_⟩
      cases hch : c.chan[channel]? with
      | none =>
        rw [hch] at h
        cases h
      | some ch =>
        rw [hch, Option.some_bind] at h
        refine ⟨ch, rfl, ?_⟩
        intro hpin
        rw [if_pos hpin] at h
        cases h
        exact absurd rfl hne

theorem pwm_set_noop_witness :
    pwm_set samd21 Hw.zero 1 1 123 = some Hw.zero ∧ pwm_set samd21 Hw.zero 1 2 123 = some Hw.zero :=
  ⟨(pwm_set_noop samd21 Hw.zero 1 1 123 ⟨Tcc.TCC1, [⟨6, 4, 0⟩, ⟨0xffffffff, 4, 1⟩], 2⟩ rfl).1
      (Or.inr ⟨⟨0xffffffff, 4, 1⟩, rfl, rfl⟩),
    (pwm_set_noop samd21 Hw.zero 1 2 123 ⟨Tcc.TCC1, [⟨6, 4, 0⟩, ⟨0xffffffff, 4, 1⟩], 2⟩ rfl).1
      (Or.inl (by decide))⟩

/-! ## Power toggling -/

theorem pwm_poweroff_spec (k : Env) (st : Hw) (dev : Nat) (c : pwm_conf_t) (mask id : Nat)
    (hc : k.pwm_config[dev]? = some c)
    (hm : _apbcmask_tcc k dev = some mask) (hi : _clk_id k dev = some id) :
    pwm_poweroff k st dev = some
      ((((st.write (Reg.CTRLA c.dev) (st.regs (Reg.CTRLA c.dev) &&& not32 k.TCC_CTRLA_ENABLE)).write
          Reg.PM_APBCMASK (st.regs Reg.PM_APBCMASK &&& not32 mask)).write
          Reg.GCLK_CLKCTRL (k.GCLK_CLKCTRL_GEN_GCLK7 ||| GCLK_CLKCTRL_ID k id)).wait_GCLK_SYNCBUSY) := by
  simp [pwm_poweroff, tcc_of_config k dev c hc, hm, hi, Hw.write, Hw.setReg]

theorem pwm_poweron_spec (k : Env) (st : Hw) (dev : Nat) (c : pwm_conf_t) (mask id : Nat)
    (hc : k.pwm_config[dev]? = some c)
    (hm : _apbcmask_tcc k dev = some mask) (hi : _clk_id k dev = some id) :
    pwm_poweron k st dev = some
      ((((st.write Reg.PM_APBCMASK (st.regs Reg.PM_APBCMASK ||| mask)).write Reg.GCLK_CLKCTRL
          (k.GCLK_CLKCTRL_CLKEN ||| k.GCLK_CLKCTRL_GEN_GCLK0 ||| GCLK_CLKCTRL_ID k id)).wait_GCLK_SYNCBUSY).write
          (Reg.CTRLA c.dev) (st.regs (Reg.CTRLA c.dev) ||| k.TCC_CTRLA_ENABLE)) := by
  simp [pwm_poweron, poweron_spec k st dev mask id hm hi, tcc_of_config k dev c hc, Hw.write,
    Hw.setReg, Hw.wait_GCLK_SYNCBUSY]

/-- C8: for a device of the table whose counter the chip has, `pwm_poweroff`
followed by `pwm_poweron` both return, and neither changes the waveform
configuration (period, prescaler field, `CTRLB` with the count direction,
waveform register, compare registers of both banks).  `pwm_poweroff` clears the
enable bit and the bus-clock mask bit and leaves every register other than
`CTRLA`, `PM->APBCMASK` and `GCLK->CLKCTRL` as it was; after `pwm_poweron` the
enable bit and the bus-clock mask bit are set and `GCLK->CLKCTRL` holds the
generator-0 connection of the device's clock.  From a running counter (enable
bit set in a 32-bit `CTRLA`) the pair restores `CTRLA` exactly. -/
theorem pwm_poweroff_poweron_preserves (k : Env) (st : Hw) (dev : Nat) (c : pwm_conf_t)
    (hc : k.pwm_config[dev]? = some c) (ht : KnownTcc k c.dev) (hl : LayoutOK k) :
    ∃ mask id st1 st2,
      _apbcmask_tcc k dev = some mask ∧ _clk_id k dev = some id ∧
      pwm_poweroff k st dev = some st1 ∧ pwm_poweron k st1 dev = some st2 ∧
      SameWaveform k c.dev st st1 ∧
      st1.regs (Reg.CTRLA c.dev) = st.regs (Reg.CTRLA c.dev) &&& not32 k.TCC_CTRLA_ENABLE ∧
      st1.regs (Reg.CTRLA c.dev) &&& k.TCC_CTRLA_ENABLE = 0 ∧
      st1.regs Reg.PM_APBCMASK &&& mask = 0 ∧
      (∀ r, r ≠ Reg.CTRLA c.dev → r ≠ Reg.PM_APBCMASK → r ≠ Reg.GCLK_CLKCTRL →
        st1.regs r = st.regs r) ∧
      SameWaveform k c.dev st st2 ∧
      st2.regs (Reg.CTRLA c.dev) &&& k.TCC_CTRLA_ENABLE = k.TCC_CTRLA_ENABLE ∧
      st2.regs Reg.PM_APBCMASK &&& mask = mask ∧
      st2.regs Reg.GCLK_CLKCTRL
        = (k.GCLK_CLKCTRL_CLKEN ||| k.GCLK_CLKCTRL_GEN_GCLK0 ||| GCLK_CLKCTRL_ID k id) ∧
      (st.regs (Reg.CTRLA c.dev) < 2 ^ 32 →
        st.regs (Reg.CTRLA c.dev) &&& k.TCC_CTRLA_ENABLE = k.TCC_CTRLA_ENABLE →
        st2.regs (Reg.CTRLA c.dev) = st.regs (Reg.CTRLA c.dev)) := by
  obtain ⟨mask, hm, hmlt⟩ := apbcmask_of_known k dev c hc ht
  obtain ⟨id, hi⟩ := clk_id_of_known k dev c hc ht
  have hmlt := hmlt hl
  obtain ⟨-, -, he32, -, hm32, hem, -⟩ := hl
  refine ⟨mask, id, _, _, hm, hi, pwm_poweroff_spec k st dev c mask id hc hm hi,
    pwm_poweron_spec k _ dev c mask id hc hm hi, ?_, ?_, ?_, ?_, ?_, ?_, ?_, ?_, ?_, ?_⟩
  · refine ⟨?_, ?_, ?_, ?_, ?_, ?_⟩ <;>
      simp [Hw.write, Hw.wait_GCLK_SYNCBUSY, Hw.setReg, prescalerField,
        and_not32_and_of_disjoint _ _ _ hem hm32]
  · simp [Hw.write, Hw.wait_GCLK_SYNCBUSY, Hw.setReg]
  · simp [Hw.write, Hw.wait_GCLK_SYNCBUSY, Hw.setReg, and_not32_and_self _ _ he32]
  · simp [Hw.write, Hw.wait_GCLK_SYNCBUSY, Hw.setReg, and_not32_and_self _ _ hmlt]
  · intro r h1 h2 h3
    simp [Hw.write, Hw.wait_GCLK_SYNCBUSY, Hw.setReg, h1, h2, h3]
  · refine ⟨?_, ?_, ?_, ?_, ?_, ?_⟩ <;>
      simp [Hw.write, Hw.wait_GCLK_SYNCBUSY, Hw.setReg, prescalerField,
        and_not32_and_of_disjoint _ _ _ hem hm32, or_and_of_disjoint _ _ _ hem]
  · simp [Hw.write, Hw.wait_GCLK_SYNCBUSY, Hw.setReg, or_and_self]
  · simp [Hw.write, Hw.wait_GCLK_SYNCBUSY, Hw.setReg, or_and_self]
  · simp [Hw.write, Hw.wait_GCLK_SYNCBUSY, Hw.setReg]
  · intro hlt hen
    simp [Hw.write, Hw.wait_GCLK_SYNCBUSY, Hw.setReg, and_not32_or_self _ _ hlt hen]

theorem pwm_poweroff_poweron_preserves_witness :
    ∃ st1 st2, pwm_poweroff samd21 Hw.zero 2 = some st1 ∧ pwm_poweron samd21 st1 2 = some st2 ∧
      SameWaveform samd21 Tcc.TCC2 Hw.zero st2 ∧
      st2.regs (Reg.CTRLA Tcc.TCC2) &&& 2 = 2 := by
  obtain ⟨mask, id, st1, st2, -, -, h1, h2, -, -, -, -, -, h3, h4, -⟩ :=
    pwm_poweroff_poweron_preserves samd21 Hw.zero 2 ⟨Tcc.TCC2, [⟨16, 4, 0⟩], 1⟩ rfl
      (by decide) (by decide)
  exact ⟨st1, st2, h1, h2, h3, h4⟩

end Samd21Pwm
